import Mathlib

/-!
Verification development for the minc-extension repository.

Shallow embedding of:
  * the cluster reconciliation engine (`ProviderManager.updateClusters`,
    src/manager/provider-manager.ts),
  * the CLI tool lifecycle manager (`CliToolManager`,
    src/manager/cli-tool-manager.ts),
  * the cluster creation parameter extraction (`CreateClusterHelper.create`,
    src/helper/create-cluster-helper.ts),
  * the cluster scan and version-string helpers (`ClusterSearchHelper.search`
    and `FileHelper.removeVersionPrefix`, bundled in
    src/helper/github-helper.ts).

JavaScript `undefined`-aware values are modelled with `Option`; JS string
truthiness (`!s` is true for `undefined` and `""`) is modelled explicitly.
-/

set_option autoImplicit false

namespace Minc

/-- JS truthiness of an optional string: `undefined` and `""` are falsy. -/
def optTruthy : Option String → Bool
  | none => false
  | some s => s ≠ ""

/-- JS template-string rendering of a possibly-undefined string
(string interpolation prints `undefined` for a missing value). -/
def jsShow : Option String → String
  | none => "undefined"
  | some s => s

/-! ## Container data model (fields used by provider-manager.ts) -/

/-- One entry of `ContainerInfo.Ports`. The source field `Type` is rendered
here as `portType`; `PublicPort` is optional, matching containers whose
private port is exposed but not published. -/
structure PortInfo where
  PrivatePort : Nat
  PublicPort : Option Nat
  portType : String
deriving Repr, DecidableEq

/-- The fields of `ContainerInfo` read by `updateClusters` and by
`ClusterSearchHelper.search`. `Labels` is the container label map. -/
structure ContainerInfo where
  Id : String
  Labels : List (String × String)
  State : String
  Ports : List PortInfo
  engineType : String
  engineId : String
deriving Repr, DecidableEq

/-- The host API type `ProviderConnectionStatus` (the full enumeration, so that
totality of the status derivation is a real statement). -/
inductive ProviderConnectionStatus
  | starting
  | started
  | stopped
  | stopping
  | unknown
deriving Repr, DecidableEq

namespace ClusterSearchHelper

/-- The fixed cluster label key (`ClusterSearchHelper.CLUSTER_LABEL`). -/
def CLUSTER_LABEL : String := "io.x-openshift.microshift.cluster"

/-- The method `ClusterSearchHelper.search` (bundled in
src/helper/github-helper.ts), with the `listContainers()` result passed in:
`allContainers.filter(container => container.Labels?.[CLUSTER_LABEL])` —
the filter keeps a container when the label value is truthy, so a missing
key and a key mapped to the empty string are both excluded. -/
def search (containers : List ContainerInfo) : List ContainerInfo :=
  containers.filter (fun c => optTruthy (c.Labels.lookup CLUSTER_LABEL))

end ClusterSearchHelper

namespace ProviderManager

/-- The constant `ProviderManager.API_MINC_INTERNAL_API_PORT`. -/
def API_MINC_INTERNAL_API_PORT : Nat := 6443

/-- One element of `this.mincClusters`. `name` is
`container.Labels[CLUSTER_LABEL]`, hence `Option String`: it is `undefined`
at run time when the label is absent. -/
structure MincCluster where
  name : Option String
  status : ProviderConnectionStatus
  apiPort : Nat
  engineType : String
  engineId : String
  id : String
deriving Repr, DecidableEq

/-- Status derivation in `updateClusters`:
`clusterStatus === 'running' ? 'started' : 'stopped'`. -/
def statusOfState (s : String) : ProviderConnectionStatus :=
  if s = "running" then .started else .stopped

/-- The search `container.Ports.find(port => port.PrivatePort === 6443 && port.Type === 'tcp')`. -/
def findListeningPort (ports : List PortInfo) : Option PortInfo :=
  ports.find? (fun p => p.PrivatePort == API_MINC_INTERNAL_API_PORT && p.portType == "tcp")

/-- The reference port derivation, in the spec's own wording: the public
port of the first published-port entry with private port 6443 and protocol
tcp, 0 when the entry is missing or has no public port. Compared against
the port computed by `mincClusterOf`. -/
def refApiPort : List PortInfo → Nat
  | [] => 0
  | p :: rest =>
    if p.PrivatePort = API_MINC_INTERNAL_API_PORT ∧ p.portType = "tcp" then
      p.PublicPort.getD 0
    else
      refApiPort rest

/-- The per-container mapping of `updateClusters` building one target
cluster: name from the cluster label, status from the run-state, apiPort as
`listeningPort?.PublicPort ?? 0`. -/
def mincClusterOf (c : ContainerInfo) : MincCluster :=
  { name := c.Labels.lookup ClusterSearchHelper.CLUSTER_LABEL
    status := statusOfState c.State
    apiPort := ((findListeningPort c.Ports).bind PortInfo.PublicPort).getD 0
    engineType := c.engineType
    engineId := c.engineId
    id := c.Id }

/-- The value of `this.mincClusters` as computed by a pass of `updateClusters`. -/
def mincClustersOf (containers : List ContainerInfo) : List MincCluster :=
  containers.map mincClusterOf

/-- One element of `this.registeredKubernetesConnections`. `connId` models
the object identity of the `{connection, disposable}` pair: it is assigned
once at creation and never changes, while `status` and `apiURL` model the
current values of the mutable `connection.status` accessor and
`connection.endpoint.apiURL`, which are overwritten in place. -/
structure RegisteredConnection where
  name : Option String
  connId : Nat
  status : ProviderConnectionStatus
  apiURL : String
deriving Repr, DecidableEq

/-- The reconciler's mutable state: the target cluster list, the connection
registry, and a fresh-identity counter for newly allocated connection
objects. -/
structure ProviderState where
  mincClusters : List MincCluster
  registry : List RegisteredConnection
  nextId : Nat
deriving Repr, DecidableEq

/-- Connection creation in `updateClusters`: name, status accessor and
endpoint URL (`https://localhost:${cluster.apiPort}`) derived from the
cluster, with a fresh object identity. -/
def mkConnection (id : Nat) (cl : MincCluster) : RegisteredConnection :=
  { name := cl.name
    connId := id
    status := cl.status
    apiURL := "https://localhost:" ++ toString cl.apiPort }

/-- The `else` branch of the creation/update loop: update the mutable fields
of the first registered connection whose name matches, in place (identity
and name untouched). -/
def updateFirstMatch (cl : MincCluster) : List RegisteredConnection → List RegisteredConnection
  | [] => []
  | item :: rest =>
    if item.name == cl.name then
      { item with status := cl.status, apiURL := "https://localhost:" ++ toString cl.apiPort } :: rest
    else
      item :: updateFirstMatch cl rest

/-- One iteration of the creation/update loop of `updateClusters`: if a
registered connection with the cluster's name exists, refresh its mutable
fields; otherwise create a new connection and push it. -/
def applyCluster (st : ProviderState) (cl : MincCluster) : ProviderState :=
  if st.registry.any (fun item => item.name == cl.name) then
    { st with registry := updateFirstMatch cl st.registry }
  else
    { st with registry := st.registry ++ [mkConnection st.nextId cl], nextId := st.nextId + 1 }

/-- The removal loop of `updateClusters`, which iterates the registry with
`for...of` while calling `splice` on the same array. A JS array iterator is
index based, so removing the element at the current index shifts the next
element into its place and the iterator then skips it: after a removal the
immediately following element is kept unexamined. `skip` is true exactly
when the previous iteration removed its element. Returns the surviving
registry and the identities of the connections whose disposer was invoked,
in order. -/
def removeLoop (names : List (Option String)) :
    List RegisteredConnection → Bool → List RegisteredConnection × List Nat
  | [], _ => ([], [])
  | item :: rest, true =>
    let r := removeLoop names rest false
    (item :: r.1, r.2)
  | item :: rest, false =>
    if names.contains item.name then
      let r := removeLoop names rest false
      (item :: r.1, r.2)
    else
      let r := removeLoop names rest true
      (r.1, item.connId :: r.2)

/-- A full pass of `ProviderManager.updateClusters`: recompute the target
cluster list from the containers, run the creation/update loop, then run the
removal loop. Returns the new state together with the list of connection
identities disposed during the pass. -/
def updateClusters (containers : List ContainerInfo) (st : ProviderState) :
    ProviderState × List Nat :=
  let clusters := mincClustersOf containers
  let st1 := clusters.foldl applyCluster { st with mincClusters := clusters }
  let r := removeLoop (clusters.map (·.name)) st1.registry false
  ({ st1 with registry := r.1 }, r.2)

/-- The name/identity projection of a registry: what "the same connection
set, with the same object identities" means for the host. -/
def connSig (l : List RegisteredConnection) : List (Option String × Nat) :=
  l.map (fun i => (i.name, i.connId))

/-- The names of a registry's connections, in order. -/
def regNames (l : List RegisteredConnection) : List (Option String) :=
  l.map (·.name)

/-- No two adjacent entries of a name list are both stale (absent from
`names`). -/
def noAdjacentStale (names : List (Option String)) : List (Option String) → Bool
  | a :: b :: rest => (names.contains a || names.contains b) && noAdjacentStale names (b :: rest)
  | _ => true

end ProviderManager

namespace FileHelper

/-- JS whitespace as stripped by `String.prototype.trim`: tab through
carriage return, space, and the Unicode space and line separators
(U+00A0, U+1680, U+2000..U+200A, U+2028, U+2029, U+202F, U+205F, U+3000,
U+FEFF). -/
def isJsWhitespace (c : Char) : Bool :=
  (9 ≤ c.toNat && c.toNat ≤ 13) || c.toNat == 32 || c.toNat == 160 ||
    c.toNat == 5760 || (8192 ≤ c.toNat && c.toNat ≤ 8202) || c.toNat == 8232 ||
    c.toNat == 8233 || c.toNat == 8239 || c.toNat == 8287 || c.toNat == 12288 ||
    c.toNat == 65279

/-- The effect of `version.replace('v', '')` with a plain-string pattern:
remove the first occurrence of the character, wherever it occurs; a string
without the character is returned unchanged. -/
def removeFirstChar (target : Char) : List Char → List Char
  | [] => []
  | c :: cs => if c = target then cs else c :: removeFirstChar target cs

/-- The effect of `String.prototype.trim`: strip whitespace from both ends. -/
def trimChars (cs : List Char) : List Char :=
  ((cs.dropWhile isJsWhitespace).reverse.dropWhile isJsWhitespace).reverse

/-- The method `FileHelper.removeVersionPrefix` (bundled in
src/helper/github-helper.ts): `version.replace('v', '').trim()` — remove
the first `v` anywhere in the string, then trim surrounding whitespace. -/
def removeVersionPrefix (version : String) : String :=
  String.mk (trimChars (removeFirstChar 'v' version.data))

end FileHelper

namespace CliToolManager

/-- A GitHub release asset (`MincGithubReleaseArtifactMetadata`), reduced to
the field the manager reads. -/
structure ReleaseAsset where
  tag : String
deriving Repr, DecidableEq

/-- The state read by `doUpdate` (getUpdate's closure): the registered
tool's version (`this.#mincCli?.version`), the recorded path
(`this.#mincPath`), the detected binary's version (`this.#binary?.version`),
the latest release detected at registration (`latestAsset`/`latestVersion`),
and the Pending Release Selection
(`releaseToUpdateTo`/`releaseVersionToUpdateTo`). -/
structure UpdateState where
  mincCliVersion : Option String
  mincPath : Option String
  binaryVersion : Option String
  latestAsset : Option ReleaseAsset
  latestVersion : Option String
  releaseToUpdateTo : Option ReleaseAsset
  releaseVersionToUpdateTo : Option String
deriving Repr, DecidableEq

/-- Outcome of `doUpdate`: an error, or the release/version pair the update
proceeds with (download, system-wide install and version bump follow from
that pair). -/
inductive UpdateResult
  | failure (msg : String)
  | go (release : ReleaseAsset) (version : String)
deriving Repr, DecidableEq

/-- The message of the "no release selected" error, which interpolates
`this.#mincPath` and `this.#binary?.version`. -/
def noReleaseSelectedMsg (st : UpdateState) : String :=
  "Cannot update " ++ jsShow st.mincPath ++ " version " ++ jsShow st.binaryVersion ++
    ". No release selected."

/-- The `doUpdate` operation of `CliToolManager.getUpdate`: guard on installed tool, fall
back to the latest release when nothing was selected, then guard on having a
release. -/
def doUpdate (st : UpdateState) : UpdateResult :=
  if !(optTruthy st.mincCliVersion) || !(optTruthy st.mincPath) then
    .failure "Cannot update minc. No cli tool installed."
  else
    let rel := if st.releaseToUpdateTo.isNone && st.latestAsset.isSome
      then st.latestAsset else st.releaseToUpdateTo
    let ver := if st.releaseToUpdateTo.isNone && st.latestAsset.isSome
      then st.latestVersion else st.releaseVersionToUpdateTo
    match rel, ver with
    | some r, some v => if v = "" then .failure (noReleaseSelectedMsg st) else .go r v
    | some _, none => .failure (noReleaseSelectedMsg st)
    | none, _ => .failure (noReleaseSelectedMsg st)

/-- The state read and written by `doUninstall`: the registered tool's
version and the recorded path. -/
structure CliState where
  mincCliVersion : Option String
  mincPath : Option String
deriving Repr, DecidableEq

/-- The query `CliToolManager.isInstalled`, which is `!!this.#mincPath`. -/
def isInstalled (st : CliState) : Bool :=
  optTruthy st.mincPath

/-- The deletions performed by a successful `doUninstall`: the cached
download artifact (`deleteFile(storagePath)`) and the system-wide binary
(`deleteExecutableAsAdmin(systemPath)`). -/
structure UninstallEffects where
  deletedCacheArtifact : String
  deletedSystemBinary : String
deriving Repr, DecidableEq

/-- Outcome of `doUninstall`. -/
inductive UninstallResult
  | failure (msg : String)
  | done (st : CliState) (effects : UninstallEffects)
deriving Repr, DecidableEq

/-- The `doUninstall` operation of `CliToolManager.getInstaller`: fails when the
registered tool has no version; otherwise deletes the cache artifact and the
system binary and sets `this.#mincPath = undefined`. The registered tool's
version is not touched. -/
def doUninstall (cliStoragePath systemBinaryPath : String) (st : CliState) :
    UninstallResult :=
  if !(optTruthy st.mincCliVersion) then
    .failure "Cannot uninstall minc. No version detected."
  else
    .done { st with mincPath := none } ⟨cliStoragePath, systemBinaryPath⟩

/-- Installation provenance (`CliToolInstallationSource`). -/
inductive InstallationSource
  | extensionSource
  | externalSource
deriving Repr, DecidableEq

/-- The path/version record returned by `FileHelper.getMincBinaryInfo`. -/
structure BinaryInfo where
  path : String
  version : String
deriving Repr, DecidableEq

/-- The collaborator results `registerCliTool` consumes: the system-wide
binary lookup and the extension-storage lookup (`none` models the thrown,
caught-and-logged error), the path the extension itself would install to,
node's `normalize`, and the latest-release lookup. -/
structure RegisterCtx where
  systemLookup : Option BinaryInfo
  storageLookup : Option BinaryInfo
  systemBinaryPath : String
  normalize : String → String
  latestAsset : Option ReleaseAsset

/-- What `registerCliTool` leaves behind: the detected binary record, its
provenance, the recorded path, and whether an update descriptor and an
installer descriptor were registered on the created tool. -/
structure RegisterOutcome where
  binary : Option BinaryInfo
  installationSource : Option InstallationSource
  mincPath : Option String
  registeredUpdate : Bool
  registeredInstaller : Bool

/-- The method `CliToolManager.registerCliTool`: detection step 1 (system-wide lookup,
provenance from normalized-path comparison), step 2 (extension storage,
provenance forced to extension), then registration; update and installer
descriptors are registered unless provenance is external, in which case the
method returns early. -/
def registerCliTool (ctx : RegisterCtx) : RegisterOutcome :=
  let found : Option BinaryInfo × Option InstallationSource :=
    match ctx.systemLookup with
    | some b =>
      (some b,
        some (if ctx.normalize b.path = ctx.normalize ctx.systemBinaryPath
          then .extensionSource else .externalSource))
    | none =>
      match ctx.storageLookup with
      | some b => (some b, some .extensionSource)
      | none => (none, none)
  let mincPath := found.1.map BinaryInfo.path
  if found.2 = some .externalSource then
    ⟨found.1, found.2, mincPath, false, false⟩
  else
    ⟨found.1, found.2, mincPath, true, true⟩

end CliToolManager

namespace CreateClusterHelper

/-- A JavaScript value of a free-form parameter map entry. `undefinedV` is
`undefined`; `objV` stands for any value whose `typeof` is neither
`'string'` nor `'number'` and which is truthy (objects, arrays, functions). -/
inductive JsValue
  | num (n : Int)
  | str (s : String)
  | boolV (b : Bool)
  | undefinedV
  | objV
deriving Repr, DecidableEq

/-- JS truthiness of a `JsValue`. -/
def truthy : JsValue → Bool
  | .num n => n ≠ 0
  | .str s => s ≠ ""
  | .boolV b => b
  | .undefinedV => false
  | .objV => true

/-- The type guard `['string', 'number'].includes(typeof v)`. -/
def isStringOrNumber : JsValue → Bool
  | .num _ => true
  | .str _ => true
  | _ => false

/-- Numeric value of a decimal digit character, if it is one (48 is the
code point of the character zero). -/
def decDigit (c : Char) : Option Nat :=
  if '0' ≤ c ∧ c ≤ '9' then some (c.toNat - 48) else none

/-- Read a run of decimal digits into an accumulator, rejecting any
non-digit character. -/
def readDigits : List Char → Nat → Option Nat
  | [], acc => some acc
  | c :: cs, acc =>
    match decDigit c with
    | some d => readDigits cs (acc * 10 + d)
    | none => none

/-- JS `Number(s)` on a string, restricted to decimal integer literals
(optionally negative); `none` models `NaN`. -/
def strToNumber (s : String) : Option Int :=
  match s.data with
  | [] => some 0
  | '-' :: rest => if rest.isEmpty then none else (readDigits rest 0).map fun n => -(n : Int)
  | cs => (readDigits cs 0).map fun n => (n : Int)

/-- JS `Number(v)` on the values the guard lets through, restricted to
integer results; `none` models `NaN`. -/
def jsNumber : JsValue → Option Int
  | .num n => some n
  | .str s => strToNumber s
  | .boolV b => some (if b then 1 else 0)
  | .undefinedV => none
  | .objV => none

/-- The HTTP port parameter key. -/
def httpPortKey : String := "microshift.cluster.creation.http.port"

/-- The HTTPS port parameter key. -/
def httpsPortKey : String := "microshift.cluster.creation.https.port"

/-- The untyped parameter map. -/
def Params : Type := List (String × JsValue)

/-- The read `params[key]`: a missing property reads as `undefined`. -/
def lookupParam (params : Params) (key : String) : JsValue :=
  match List.lookup key params with
  | some v => v
  | none => .undefinedV

/-- The port-extraction pattern of `CreateClusterHelper.create`: the
parameter value is used only when it is truthy and of type string or number,
else the default stands. `none` models `NaN` reaching the port variable. -/
def extractPort (params : Params) (key : String) (dflt : Int) : Option Int :=
  let v := lookupParam params key
  if truthy v && isStringOrNumber v then jsNumber v else some dflt

/-- The rendering `String(port)` of a port value as passed to the CLI. -/
def portArg : Option Int → String
  | some n => toString n
  | none => "NaN"

/-- The exact argument vector `CreateClusterHelper.create` passes to
`process.exec` after extracting both ports. -/
def createArgs (params : Params) : List String :=
  ["create",
   "--http-port", portArg (extractPort params httpPortKey 80),
   "--https-port", portArg (extractPort params httpsPortKey 443)]

end CreateClusterHelper

end Minc

namespace Minc.ProviderManager

/-! ### Lemmas about the creation/update loop -/

theorem connSig_updateFirstMatch (cl : MincCluster) (l : List RegisteredConnection) :
    connSig (updateFirstMatch cl l) = connSig l := by
  induction l with
  | nil => rfl
  | cons a l ih =>
    have ih' := ih
    simp only [connSig] at ih' ⊢
    by_cases h : (a.name == cl.name) = true <;>
      simp [updateFirstMatch, h, ih']

theorem regNames_eq_connSig (l : List RegisteredConnection) :
    regNames l = (connSig l).map Prod.fst := by
  simp [regNames, connSig, List.map_map]

theorem regNames_updateFirstMatch (cl : MincCluster) (l : List RegisteredConnection) :
    regNames (updateFirstMatch cl l) = regNames l := by
  rw [regNames_eq_connSig, regNames_eq_connSig, connSig_updateFirstMatch]

theorem any_name_eq (l : List RegisteredConnection) (n : Option String) :
    (l.any fun i => i.name == n) = true ↔ n ∈ regNames l := by
  simp [List.any_eq_true, regNames, List.mem_map, beq_iff_eq]

theorem regNames_applyCluster (st : ProviderState) (cl : MincCluster) :
    regNames (applyCluster st cl).registry = regNames st.registry ∨
    regNames (applyCluster st cl).registry = regNames st.registry ++ [cl.name] := by
  by_cases h : (st.registry.any fun i => i.name == cl.name) = true
  · left
    simp [applyCluster, h, regNames_updateFirstMatch]
  · right
    simp [applyCluster, h, regNames, mkConnection]

theorem regNames_foldl_applyCluster (cs : List MincCluster) :
    ∀ st : ProviderState, ∃ m : List (Option String),
      regNames (cs.foldl applyCluster st).registry = regNames st.registry ++ m ∧
      ∀ n ∈ m, ∃ cl, cl ∈ cs ∧ n = cl.name := by
  induction cs with
  | nil => exact fun st => ⟨[], by simp, by simp⟩
  | cons c cs ih =>
    intro st
    obtain ⟨m, hm, hmem⟩ := ih (applyCluster st c)
    rcases regNames_applyCluster st c with h | h
    · refine ⟨m, ?_, ?_⟩
      · simpa [h] using hm
      · intro n hn
        obtain ⟨cl, hcl, hname⟩ := hmem n hn
        exact ⟨cl, List.mem_cons_of_mem _ hcl, hname⟩
    · refine ⟨c.name :: m, ?_, ?_⟩
      · simp only [List.foldl_cons, hm, h, List.append_assoc, List.singleton_append]
      · intro n hn
        rcases List.mem_cons.mp hn with rfl | hn'
        · exact ⟨c, List.mem_cons_self .., rfl⟩
        · obtain ⟨cl, hcl, hname⟩ := hmem n hn'
          exact ⟨cl, List.mem_cons_of_mem _ hcl, hname⟩

theorem name_mem_applyCluster_self (st : ProviderState) (cl : MincCluster) :
    cl.name ∈ regNames (applyCluster st cl).registry := by
  by_cases h : (st.registry.any fun i => i.name == cl.name) = true
  · have hmem : cl.name ∈ regNames st.registry := (any_name_eq _ _).mp h
    simpa [applyCluster, h, regNames_updateFirstMatch] using hmem
  · simp [applyCluster, h, regNames, mkConnection]

theorem name_mem_applyCluster_of_mem (st : ProviderState) (cl : MincCluster)
    (n : Option String) (h : n ∈ regNames st.registry) :
    n ∈ regNames (applyCluster st cl).registry := by
  rcases regNames_applyCluster st cl with he | he <;> rw [he]
  · exact h
  · exact List.mem_append_left _ h

theorem name_mem_foldl_of_mem (cs : List MincCluster) :
    ∀ (st : ProviderState) (n : Option String), n ∈ regNames st.registry →
      n ∈ regNames (cs.foldl applyCluster st).registry := by
  induction cs with
  | nil => exact fun st n h => h
  | cons c cs ih =>
    intro st n h
    exact ih (applyCluster st c) n (name_mem_applyCluster_of_mem st c n h)

theorem name_mem_foldl_self (cs : List MincCluster) :
    ∀ (st : ProviderState) (cl : MincCluster), cl ∈ cs →
      cl.name ∈ regNames (cs.foldl applyCluster st).registry := by
  induction cs with
  | nil => intro _ _ h; cases h
  | cons c cs ih =>
    intro st cl hcl
    rcases List.mem_cons.mp hcl with rfl | hcl'
    · exact name_mem_foldl_of_mem cs (applyCluster st cl) cl.name
        (name_mem_applyCluster_self st cl)
    · exact ih (applyCluster st c) cl hcl'

theorem connSig_foldl_of_present (cs : List MincCluster) :
    ∀ st : ProviderState, (∀ cl ∈ cs, cl.name ∈ regNames st.registry) →
      connSig (cs.foldl applyCluster st).registry = connSig st.registry := by
  induction cs with
  | nil => exact fun st _ => rfl
  | cons c cs ih =>
    intro st hpres
    have hc : c.name ∈ regNames st.registry := hpres c (List.mem_cons_self ..)
    have hany : (st.registry.any fun i => i.name == c.name) = true := (any_name_eq _ _).mpr hc
    have happ : applyCluster st c = { st with registry := updateFirstMatch c st.registry } := by
      simp [applyCluster, hany]
    have hnames : regNames (updateFirstMatch c st.registry) = regNames st.registry :=
      regNames_updateFirstMatch c st.registry
    rw [List.foldl_cons, happ, ih _ ?_]
    · exact connSig_updateFirstMatch c st.registry
    · intro cl hcl
      simpa [hnames] using hpres cl (List.mem_cons_of_mem _ hcl)

theorem mincClusters_applyCluster (st : ProviderState) (cl : MincCluster) :
    (applyCluster st cl).mincClusters = st.mincClusters := by
  unfold applyCluster
  split <;> rfl

theorem mincClusters_foldl_applyCluster (cs : List MincCluster) :
    ∀ st : ProviderState, (cs.foldl applyCluster st).mincClusters = st.mincClusters := by
  induction cs with
  | nil => exact fun _ => rfl
  | cons c cs ih =>
    intro st
    rw [List.foldl_cons, ih, mincClusters_applyCluster]

theorem apiPort_eq_refApiPort (ports : List PortInfo) :
    ((findListeningPort ports).bind PortInfo.PublicPort).getD 0 = refApiPort ports := by
  induction ports with
  | nil => rfl
  | cons p rest ih =>
    by_cases h : p.PrivatePort = API_MINC_INTERNAL_API_PORT ∧ p.portType = "tcp"
    · have hb : (p.PrivatePort == API_MINC_INTERNAL_API_PORT && p.portType == "tcp") = true := by
        simp [h.1, h.2]
      simp [findListeningPort, refApiPort, List.find?_cons, hb, h]
    · have hb : (p.PrivatePort == API_MINC_INTERNAL_API_PORT && p.portType == "tcp") = false := by
        rcases not_and_or.mp h with h1 | h1 <;> simp [h1]
      simpa [findListeningPort, refApiPort, List.find?_cons, hb, h] using ih

/-! ### Lemmas about the removal loop -/

theorem noAdjacentStale_tail (N : List (Option String)) (x : Option String)
    (xs : List (Option String)) (h : noAdjacentStale N (x :: xs) = true) :
    noAdjacentStale N xs = true := by
  cases xs with
  | nil => rfl
  | cons b xs' =>
    simp only [noAdjacentStale, Bool.and_eq_true] at h
    exact h.2

theorem noAdjacentStale_of_all_contained (N : List (Option String)) :
    ∀ m : List (Option String), (∀ n ∈ m, N.contains n = true) →
      noAdjacentStale N m = true := by
  intro m
  induction m with
  | nil => intro _; rfl
  | cons a m ih =>
    intro h
    cases m with
    | nil => rfl
    | cons b m' =>
      have hb : N.contains b = true := h b (List.mem_cons_of_mem _ (List.mem_cons_self ..))
      simp only [noAdjacentStale, Bool.and_eq_true, Bool.or_eq_true]
      exact ⟨Or.inr hb, ih (fun n hn => h n (List.mem_cons_of_mem _ hn))⟩

theorem noAdjacentStale_append (N : List (Option String)) (l m : List (Option String))
    (hl : noAdjacentStale N l = true) (hm : ∀ n ∈ m, N.contains n = true) :
    noAdjacentStale N (l ++ m) = true := by
  induction l with
  | nil => simpa using noAdjacentStale_of_all_contained N m hm
  | cons a l ih =>
    cases l with
    | nil =>
      cases m with
      | nil => rfl
      | cons b m' =>
        have hb : N.contains b = true := hm b (List.mem_cons_self ..)
        simp only [List.singleton_append, noAdjacentStale, Bool.and_eq_true,
          Bool.or_eq_true]
        exact ⟨Or.inr hb, noAdjacentStale_of_all_contained N (b :: m') hm⟩
    | cons b l' =>
      simp only [noAdjacentStale, Bool.and_eq_true] at hl
      have := ih hl.2
      simp only [List.cons_append, noAdjacentStale, Bool.and_eq_true] at this ⊢
      exact ⟨hl.1, this⟩

theorem removeLoop_of_all_contained (N : List (Option String))
    (l : List RegisteredConnection) (h : ∀ x ∈ l, N.contains x.name = true) :
    ∀ skip : Bool, removeLoop N l skip = (l, []) := by
  induction l with
  | nil => intro skip; cases skip <;> rfl
  | cons a l ih =>
    intro skip
    have ha : N.contains a.name = true := h a (List.mem_cons_self ..)
    have ham : a.name ∈ N := by simpa using ha
    have hl : ∀ x ∈ l, N.contains x.name = true :=
      fun x hx => h x (List.mem_cons_of_mem _ hx)
    cases skip <;> simp [removeLoop, ham, ih hl]

theorem mem_removeLoop_of_contained (N : List (Option String))
    (l : List RegisteredConnection) (x : RegisteredConnection)
    (hc : N.contains x.name = true) :
    x ∈ l → ∀ skip : Bool, x ∈ (removeLoop N l skip).1 := by
  induction l with
  | nil => intro h; cases h
  | cons a l ih =>
    intro hx skip
    rcases List.mem_cons.mp hx with rfl | hmem
    · cases skip with
      | true => simp [removeLoop]
      | false =>
        have hcm : x.name ∈ N := by simpa using hc
        simp [removeLoop, hcm]
    · cases skip with
      | true =>
        simp only [removeLoop]
        exact List.mem_cons_of_mem _ (ih hmem false)
      | false =>
        by_cases hca : a.name ∈ N
        · rw [show removeLoop N (a :: l) false
              = (a :: (removeLoop N l false).1, (removeLoop N l false).2) from by
            simp [removeLoop, hca]]
          exact List.mem_cons_of_mem _ (ih hmem false)
        · rw [show removeLoop N (a :: l) false
              = ((removeLoop N l true).1, a.connId :: (removeLoop N l true).2) from by
            simp [removeLoop, hca]]
          exact ih hmem true

theorem removeLoop_kept_contained (N : List (Option String))
    (l : List RegisteredConnection) :
    ∀ skip : Bool, noAdjacentStale N (regNames l) = true →
      (skip = true → ∀ y rest, l = y :: rest → N.contains y.name = true) →
      ∀ x ∈ (removeLoop N l skip).1, N.contains x.name = true := by
  induction l with
  | nil =>
    intro skip _ _ x hx
    cases skip <;> simp [removeLoop] at hx
  | cons a l ih =>
    intro skip h hhead x hx
    have htail : noAdjacentStale N (regNames l) = true := by
      have h' : noAdjacentStale N (a.name :: regNames l) = true := by
        simpa [regNames] using h
      exact noAdjacentStale_tail N a.name (regNames l) h'
    cases skip with
    | true =>
      simp only [removeLoop, List.mem_cons] at hx
      rcases hx with rfl | hx'
      · exact hhead rfl x l rfl
      · exact ih false htail (by simp) x hx'
    | false =>
      by_cases hca : a.name ∈ N
      · rw [show removeLoop N (a :: l) false
            = (a :: (removeLoop N l false).1, (removeLoop N l false).2) from by
          simp [removeLoop, hca]] at hx
        rcases List.mem_cons.mp hx with rfl | hx'
        · simpa using hca
        · exact ih false htail (by simp) x hx'
      · rw [show removeLoop N (a :: l) false
            = ((removeLoop N l true).1, a.connId :: (removeLoop N l true).2) from by
          simp [removeLoop, hca]] at hx
        refine ih true htail ?_ x hx
        intro _ y rest hl
        subst hl
        have h' : (N.contains a.name || N.contains y.name) = true := by
          simp only [regNames, List.map_cons, noAdjacentStale, Bool.and_eq_true] at h
          exact h.1
        rcases Bool.or_eq_true_iff.mp h' with h1 | h2
        · exact absurd (by simpa using h1) hca
        · exact h2

/-- C2 (amended): for every container list and every starting registry in
which no two adjacent connections are both stale with respect to the target
cluster names, running `updateClusters` twice in succession with that list
yields, after the second run, the same registered connection set as after
the first — the same names and the same connection/disposer object
identities — and the second run invokes no disposer. (As originally stated,
over arbitrary starting registries, the claim fails: when two adjacent
connections are both stale, the first pass's removal loop skips the second
one, and the second run then disposes it.) -/
theorem updateClusters_second_pass
    (containers : List ContainerInfo) (st0 : ProviderState)
    (h : noAdjacentStale ((mincClustersOf containers).map (fun cl => cl.name))
          (regNames st0.registry) = true) :
    connSig (updateClusters containers (updateClusters containers st0).1).1.registry
        = connSig (updateClusters containers st0).1.registry ∧
      (updateClusters containers (updateClusters containers st0).1).2 = [] := by
  set C := mincClustersOf containers with hC
  set N := C.map (fun cl => cl.name) with hNdef
  set A := List.foldl applyCluster { st0 with mincClusters := C } C with hA
  set R1 := removeLoop N A.registry false with hR1def
  set st1 : ProviderState := { A with registry := R1.1 } with hst1
  have hrun1 : updateClusters containers st0 = (st1, R1.2) := rfl
  set B := List.foldl applyCluster { st1 with mincClusters := C } C with hB
  set R2 := removeLoop N B.registry false with hR2def
  have hrun2 : updateClusters containers st1 = ({ B with registry := R2.1 }, R2.2) := rfl
  -- every target cluster name is in the target name list
  have hNc : ∀ cl ∈ C, N.contains cl.name = true := by
    intro cl hcl
    have : cl.name ∈ N := by
      rw [hNdef]
      exact List.mem_map_of_mem _ hcl
    simpa using this
  -- the first pass's creation loop appends only target names
  obtain ⟨m, hm, hmem⟩ := regNames_foldl_applyCluster C { st0 with mincClusters := C }
  have hmc : ∀ n ∈ m, N.contains n = true := by
    intro n hn
    obtain ⟨cl, hcl, rfl⟩ := hmem n hn
    exact hNc cl hcl
  have hadj : noAdjacentStale N (regNames A.registry) = true := by
    rw [← hA] at hm
    rw [hm]
    exact noAdjacentStale_append N _ m h hmc
  -- so the first pass's removal loop removes every stale connection
  have hkept : ∀ x ∈ R1.1, N.contains x.name = true := by
    rw [hR1def]
    exact removeLoop_kept_contained N A.registry false hadj (by simp)
  -- every target name is still present after the first pass
  have hpres : ∀ cl ∈ C, cl.name ∈ regNames R1.1 := by
    intro cl hcl
    have h1 : cl.name ∈ regNames A.registry := by
      rw [hA]
      exact name_mem_foldl_self C _ cl hcl
    obtain ⟨x, hx, hxn⟩ := List.mem_map.mp h1
    have hxc : N.contains x.name = true := by rw [hxn]; exact hNc cl hcl
    have hx1 : x ∈ R1.1 := by
      rw [hR1def]
      exact mem_removeLoop_of_contained N A.registry x hxc hx false
    rw [← hxn]
    exact List.mem_map_of_mem _ hx1
  -- hence the second pass's creation loop only updates in place
  have hsig2 : connSig B.registry = connSig R1.1 := by
    rw [hB]
    exact connSig_foldl_of_present C { st1 with mincClusters := C } (by simpa [hst1] using hpres)
  have hnames2 : regNames B.registry = regNames R1.1 := by
    rw [regNames_eq_connSig, regNames_eq_connSig, hsig2]
  -- and the second pass's removal loop removes nothing
  have hall2 : ∀ x ∈ B.registry, N.contains x.name = true := by
    intro x hx
    have hmm : x.name ∈ regNames B.registry := List.mem_map_of_mem _ hx
    rw [hnames2] at hmm
    obtain ⟨y, hy, hyn⟩ := List.mem_map.mp hmm
    rw [← hyn]
    exact hkept y hy
  have hrem2 : removeLoop N B.registry false = (B.registry, []) :=
    removeLoop_of_all_contained N B.registry hall2 false
  have hR2 : R2 = (B.registry, []) := by rw [hR2def, hrem2]
  rw [hrun1]
  simp only [hrun2, hR2]
  exact ⟨hsig2, trivial⟩

/-- C2 witness: a concrete starting registry with a single stale connection
satisfies the hypothesis, and the second pass is a no-op on it. -/
theorem updateClusters_second_pass_witness :
    noAdjacentStale ((mincClustersOf []).map (fun cl => cl.name))
        (regNames (ProviderState.mk [] [⟨some "a", 0, .stopped, "u"⟩] 1).registry) = true ∧
      (connSig (updateClusters []
            (updateClusters [] (ProviderState.mk [] [⟨some "a", 0, .stopped, "u"⟩] 1)).1).1.registry
          = connSig (updateClusters []
            (ProviderState.mk [] [⟨some "a", 0, .stopped, "u"⟩] 1)).1.registry ∧
        (updateClusters []
          (updateClusters [] (ProviderState.mk [] [⟨some "a", 0, .stopped, "u"⟩] 1)).1).2 = []) :=
  ⟨by decide, updateClusters_second_pass [] _ (by decide)⟩

/-- C2 counterexample: from a registry holding two adjacent stale
connections and an empty container list, the second `updateClusters` run
does not reproduce the first run's connection set — it disposes the
connection the first run skipped. -/
theorem updateClusters_second_pass_disposes :
    connSig (updateClusters []
          (updateClusters []
            (ProviderState.mk []
              [⟨some "a", 0, .stopped, "u"⟩, ⟨some "b", 1, .stopped, "u"⟩] 2)).1).1.registry
        ≠ connSig (updateClusters []
            (ProviderState.mk []
              [⟨some "a", 0, .stopped, "u"⟩, ⟨some "b", 1, .stopped, "u"⟩] 2)).1.registry ∧
      (updateClusters []
        (updateClusters []
          (ProviderState.mk []
            [⟨some "a", 0, .stopped, "u"⟩, ⟨some "b", 1, .stopped, "u"⟩] 2)).1).2 = [1] := by
  decide

/-- C1: the claim — every Registered Connection whose name is absent from
the pass's target cluster set is disposed exactly once and removed within
that same pass, even when two stale connections are adjacent — fails on the
code. With a registry of two adjacent stale connections (names "a" and "b",
identities 0 and 1) and an empty container list, the pass disposes and
removes only "a": `splice` inside `for...of` makes the iterator skip "b",
which stays registered with its disposer not invoked. -/
theorem updateClusters_adjacent_stale_skipped :
    (updateClusters []
          (ProviderState.mk []
            [⟨some "a", 0, .stopped, "u"⟩, ⟨some "b", 1, .stopped, "u"⟩] 2)).1.registry
        = [⟨some "b", 1, .stopped, "u"⟩] ∧
      (updateClusters []
        (ProviderState.mk []
          [⟨some "a", 0, .stopped, "u"⟩, ⟨some "b", 1, .stopped, "u"⟩] 2)).2 = [0] := by
  decide

/-- C3 counterexample: a container carrying the cluster label key mapped to
the empty string is not treated as a cluster node — the truthiness filter
of `search` drops it — so the pipeline produces zero target clusters while
one container carries the key. -/
theorem search_pipeline_empty_value_counterexample :
    ClusterSearchHelper.search
          [⟨"1", [(ClusterSearchHelper.CLUSTER_LABEL, "")], "running", [], "podman", "engine1"⟩]
        = [] ∧
      ((updateClusters
          (ClusterSearchHelper.search
            [⟨"1", [(ClusterSearchHelper.CLUSTER_LABEL, "")], "running", [], "podman",
              "engine1"⟩])
          ⟨[], [], 0⟩).1.mincClusters).length
        ≠ ([(⟨"1", [(ClusterSearchHelper.CLUSTER_LABEL, "")], "running", [], "podman",
              "engine1"⟩ : ContainerInfo)].filter fun c =>
            (c.Labels.lookup ClusterSearchHelper.CLUSTER_LABEL).isSome).length := by
  decide

/-- C3 (amended): for every container list and starting state, the number
of target clusters the scan-and-reconcile pipeline (`search` then
`updateClusters`) produces equals the number of containers whose cluster
label value is truthy (present and nonempty), whatever other labels are
present; and a container is kept by the scan iff it carries the key with a
nonempty value — a key mapped to the empty string is excluded by the
truthiness filter. -/
theorem search_pipeline_cluster_count (containers : List ContainerInfo) (st : ProviderState) :
    ((updateClusters (ClusterSearchHelper.search containers) st).1.mincClusters).length
        = (containers.filter fun c =>
            optTruthy (c.Labels.lookup ClusterSearchHelper.CLUSTER_LABEL)).length ∧
      ∀ c : ContainerInfo, c ∈ ClusterSearchHelper.search containers ↔
        c ∈ containers ∧
          optTruthy (c.Labels.lookup ClusterSearchHelper.CLUSTER_LABEL) = true := by
  constructor
  · simp only [updateClusters]
    rw [mincClusters_foldl_applyCluster]
    simp [mincClustersOf, ClusterSearchHelper.search]
  · intro c
    simp [ClusterSearchHelper.search, List.mem_filter]

/-- C4: the derived Registered Connection fields equal the reference
definitions — the status is `started` iff the container run-state is
`running` and `stopped` iff it is anything else (totally: no further
outcome), and the endpoint URL is `https://localhost:P` with `P` the public
port of the first published-port entry with private port 6443 and protocol
tcp, or 0 when absent. -/
theorem derived_connection_fields (c : ContainerInfo) (id : Nat) :
    ((mincClusterOf c).status = .started ↔ c.State = "running") ∧
      ((mincClusterOf c).status = .stopped ↔ c.State ≠ "running") ∧
      ((mincClusterOf c).status = .started ∨ (mincClusterOf c).status = .stopped) ∧
      (mkConnection id (mincClusterOf c)).status = (mincClusterOf c).status ∧
      (mkConnection id (mincClusterOf c)).apiURL
        = "https://localhost:" ++ toString (refApiPort c.Ports) := by
  refine ⟨?_, ?_, ?_, rfl, ?_⟩
  · by_cases h : c.State = "running" <;> simp [mincClusterOf, statusOfState, h]
  · by_cases h : c.State = "running" <;> simp [mincClusterOf, statusOfState, h]
  · by_cases h : c.State = "running" <;> simp [mincClusterOf, statusOfState, h]
  · simp [mkConnection, mincClusterOf, apiPort_eq_refApiPort]

end Minc.ProviderManager

namespace Minc.CliToolManager

/-- C5: `doUpdate` fails with the "no cli tool installed" error whenever no
tool version or no resolved path is recorded; otherwise it prefers the
Pending Release Selection, falls back to the previously detected latest
release, and when neither exists fails with a "no release selected" error
whose message names the current path and version. -/
theorem doUpdate_resolution (st : UpdateState) :
    (¬(optTruthy st.mincCliVersion = true ∧ optTruthy st.mincPath = true) →
        doUpdate st = .failure "Cannot update minc. No cli tool installed.") ∧
      (optTruthy st.mincCliVersion = true → optTruthy st.mincPath = true →
        (∀ r v, st.releaseToUpdateTo = some r → st.releaseVersionToUpdateTo = some v →
          v ≠ "" → doUpdate st = .go r v) ∧
        (st.releaseToUpdateTo = none →
          ∀ r v, st.latestAsset = some r → st.latestVersion = some v → v ≠ "" →
            doUpdate st = .go r v) ∧
        (st.releaseToUpdateTo = none → st.latestAsset = none →
          doUpdate st = .failure ("Cannot update " ++ jsShow st.mincPath ++ " version "
            ++ jsShow st.binaryVersion ++ ". No release selected."))) := by
  constructor
  · intro h
    rcases not_and_or.mp h with h1 | h1
    · have h1' : optTruthy st.mincCliVersion = false := by simpa using h1
      simp [doUpdate, h1']
    · have h1' : optTruthy st.mincPath = false := by simpa using h1
      simp [doUpdate, h1']
  · intro h1 h2
    refine ⟨?_, ?_, ?_⟩
    · intro r v hr hv hne
      simp [doUpdate, h1, h2, hr, hv, hne]
    · intro hnone r v hr hv hne
      simp [doUpdate, h1, h2, hnone, hr, hv, hne]
    · intro hnone hlat
      simp [doUpdate, h1, h2, hnone, hlat, noReleaseSelectedMsg]

/-- C5 witness: with a recorded tool but no selection and no known latest
release, `doUpdate` fails naming the path and the (undefined) binary
version, matching the repository's own unit test. -/
theorem doUpdate_resolution_witness :
    doUpdate ⟨some "1.2.0", some "fake-minc-path", none, none, none, none, none⟩
        = .failure "Cannot update fake-minc-path version undefined. No release selected." :=
  ((doUpdate_resolution _).2 (by decide) (by decide)).2.2 rfl rfl

/-- C6 counterexample: after a successful `doUninstall` the registered
tool's version is still recorded, so a subsequent `doUninstall` does not
fail with "no version detected" — it succeeds and repeats the deletions,
contrary to the claim. -/
theorem doUninstall_second_call_succeeds :
    doUninstall "cli-storage-minc-path" "/mock/system/bin/minc"
          ⟨some "1.2.0", some "/mock/minc"⟩
        = .done ⟨some "1.2.0", none⟩ ⟨"cli-storage-minc-path", "/mock/system/bin/minc"⟩ ∧
      doUninstall "cli-storage-minc-path" "/mock/system/bin/minc" ⟨some "1.2.0", none⟩
        ≠ .failure "Cannot uninstall minc. No version detected." := by
  decide

/-- C6 (amended): `doUninstall` fails with "no version detected" when no
version is recorded; with a version recorded it deletes the cached download
artifact and the system-wide binary and clears the recorded path, so that
`isInstalled()` returns false — but the registered tool's version is not
cleared, so a subsequent `doUninstall` succeeds and repeats the deletions
instead of failing. -/
theorem doUninstall_effects (cachePath sysPath : String) (st : CliState) :
    (optTruthy st.mincCliVersion = false →
        doUninstall cachePath sysPath st
          = .failure "Cannot uninstall minc. No version detected.") ∧
      (optTruthy st.mincCliVersion = true →
        doUninstall cachePath sysPath st
            = .done ⟨st.mincCliVersion, none⟩ ⟨cachePath, sysPath⟩ ∧
          isInstalled ⟨st.mincCliVersion, none⟩ = false ∧
          doUninstall cachePath sysPath ⟨st.mincCliVersion, none⟩
            = .done ⟨st.mincCliVersion, none⟩ ⟨cachePath, sysPath⟩) := by
  constructor
  · intro h
    simp [doUninstall, h]
  · intro h
    exact ⟨by simp [doUninstall, h], rfl, by simp [doUninstall, h]⟩

/-- C6 witness: a concrete uninstall with a recorded version. -/
theorem doUninstall_effects_witness :
    doUninstall "cs" "sb" ⟨some "1.2.0", some "/mock/minc"⟩
        = .done ⟨some "1.2.0", none⟩ ⟨"cs", "sb"⟩ ∧
      isInstalled ⟨some "1.2.0", none⟩ = false ∧
      doUninstall "cs" "sb" ⟨some "1.2.0", none⟩ = .done ⟨some "1.2.0", none⟩ ⟨"cs", "sb"⟩ :=
  (doUninstall_effects "cs" "sb" ⟨some "1.2.0", some "/mock/minc"⟩).2 (by decide)

/-- C7: registration computes provenance `external` exactly when the
system-wide lookup resolves a binary whose normalized path differs from the
normalized path the extension itself would install to, and whenever
provenance is `external` it registers neither an update descriptor nor an
installer descriptor. -/
theorem registerCliTool_external (ctx : RegisterCtx) :
    ((registerCliTool ctx).installationSource = some .externalSource ↔
        ∃ b, ctx.systemLookup = some b ∧
          ctx.normalize b.path ≠ ctx.normalize ctx.systemBinaryPath) ∧
      ((registerCliTool ctx).installationSource = some .externalSource →
        (registerCliTool ctx).registeredUpdate = false ∧
        (registerCliTool ctx).registeredInstaller = false) := by
  constructor
  · cases hs : ctx.systemLookup with
    | none =>
      cases hsto : ctx.storageLookup with
      | none => simp [registerCliTool, hs, hsto]
      | some b => simp [registerCliTool, hs, hsto]
    | some b =>
      by_cases hnorm : ctx.normalize b.path = ctx.normalize ctx.systemBinaryPath <;>
        simp [registerCliTool, hs, hnorm]
  · intro hext
    cases hs : ctx.systemLookup with
    | none =>
      cases hsto : ctx.storageLookup with
      | none => simp [registerCliTool, hs, hsto] at hext
      | some b => simp [registerCliTool, hs, hsto] at hext
    | some b =>
      by_cases hnorm : ctx.normalize b.path = ctx.normalize ctx.systemBinaryPath
      · simp [registerCliTool, hs, hnorm] at hext
      · simp [registerCliTool, hs, hnorm]

/-- C7 witness: a system-wide binary at a path different from the
extension's install path is external, and no update or installer descriptor
is registered. -/
theorem registerCliTool_external_witness :
    (registerCliTool
          ⟨some ⟨"/another/system/path/minc", "0.0.4"⟩, none, "/usr/local/bin/minc",
            id, none⟩).registeredUpdate = false ∧
      (registerCliTool
          ⟨some ⟨"/another/system/path/minc", "0.0.4"⟩, none, "/usr/local/bin/minc",
            id, none⟩).registeredInstaller = false :=
  (registerCliTool_external _).2
    ((registerCliTool_external _).1.mpr ⟨⟨"/another/system/path/minc", "0.0.4"⟩, rfl, by decide⟩)

end Minc.CliToolManager

namespace Minc.CreateClusterHelper

/-- C8 counterexample: the claim says a number value is accepted, but the
number 0 is falsy, so the truthiness guard discards it and the default 80
is used instead of 0. -/
theorem create_zero_port_not_accepted :
    createArgs [(httpPortKey, JsValue.num 0)]
        = ["create", "--http-port", "80", "--https-port", "443"] ∧
      createArgs [(httpPortKey, JsValue.num 0)]
        ≠ ["create", "--http-port", "0", "--https-port", "443"] := by
  decide

/-- C8 (amended): the CLI is invoked with exactly
`['create', '--http-port', h, '--https-port', s]` where each port value is
accepted when it is a truthy number (nonzero) or a truthy (nonempty)
numeric string, and the defaults 80/443 stand when the entry is absent,
falsy (the number 0 or the empty string), or of an unrecognized type. -/
theorem create_ports (params : Params) :
    createArgs params
        = ["create",
            "--http-port", portArg (extractPort params httpPortKey 80),
            "--https-port", portArg (extractPort params httpsPortKey 443)] ∧
      ∀ (key : String) (dflt : Int),
        ((truthy (lookupParam params key) = false ∨
            isStringOrNumber (lookupParam params key) = false) →
          extractPort params key dflt = some dflt) ∧
        (∀ n : Int, n ≠ 0 → lookupParam params key = .num n →
          extractPort params key dflt = some n) ∧
        (∀ (s : String) (n : Int), lookupParam params key = .str s → s ≠ "" →
          strToNumber s = some n → extractPort params key dflt = some n) := by
  refine ⟨rfl, fun key dflt => ⟨?_, ?_, ?_⟩⟩
  · rintro (h | h) <;> simp [extractPort, h]
  · intro n hn hv
    simp [extractPort, hv, truthy, isStringOrNumber, hn, jsNumber]
  · intro s n hv hs hnum
    simp [extractPort, hv, truthy, isStringOrNumber, hs, jsNumber, hnum]

/-- C8 witness: a numeric-string HTTP port is accepted and the HTTPS port
falls back to its default. -/
theorem create_ports_witness :
    createArgs [(httpPortKey, JsValue.str "8080")]
        = ["create", "--http-port", "8080", "--https-port", "443"] ∧
      extractPort [(httpPortKey, JsValue.str "8080")] httpPortKey 80 = some 8080 ∧
      extractPort [(httpPortKey, JsValue.str "8080")] httpsPortKey 443 = some 443 :=
  ⟨by decide,
    ((create_ports [(httpPortKey, JsValue.str "8080")]).2 httpPortKey 80).2.2 "8080" 8080
      (by decide) (by decide) (by decide),
    ((create_ports [(httpPortKey, JsValue.str "8080")]).2 httpsPortKey 443).1
      (Or.inl (by decide))⟩

/-- C10: a port parameter whose value is the number 0 or the empty string
is treated as absent — the default (80 for HTTP, 443 for HTTPS) is used —
because the extraction guard tests truthiness before the type. -/
theorem create_falsy_port_defaults (params : Params) :
    (lookupParam params httpPortKey = .num 0 ∨ lookupParam params httpPortKey = .str "" →
        extractPort params httpPortKey 80 = some 80) ∧
      (lookupParam params httpsPortKey = .num 0 ∨ lookupParam params httpsPortKey = .str "" →
        extractPort params httpsPortKey 443 = some 443) := by
  constructor <;> rintro (h | h) <;> simp [extractPort, h, truthy]

/-- C10 witness: concrete falsy values for both ports. -/
theorem create_falsy_port_defaults_witness :
    lookupParam [(httpPortKey, JsValue.num 0), (httpsPortKey, JsValue.str "")] httpPortKey
        = JsValue.num 0 ∧
      extractPort [(httpPortKey, JsValue.num 0), (httpsPortKey, JsValue.str "")] httpPortKey 80
        = some 80 ∧
      extractPort [(httpPortKey, JsValue.num 0), (httpsPortKey, JsValue.str "")] httpsPortKey 443
        = some 443 :=
  ⟨by decide,
    (create_falsy_port_defaults _).1 (Or.inl (by decide)),
    (create_falsy_port_defaults _).2 (Or.inr (by decide))⟩

end Minc.CreateClusterHelper

namespace Minc.FileHelper

theorem removeFirstChar_of_not_mem (t : Char) (cs : List Char) (h : t ∉ cs) :
    removeFirstChar t cs = cs := by
  induction cs with
  | nil => rfl
  | cons c cs ih =>
    have h1 : t ≠ c ∧ t ∉ cs := by simpa [List.mem_cons, not_or] using h
    simp [removeFirstChar, Ne.symm h1.1, ih h1.2]

theorem dropWhile_of_head_not (p : Char → Bool) (cs : List Char)
    (h : cs.head?.all (fun c => !p c) = true) : cs.dropWhile p = cs := by
  cases cs with
  | nil => rfl
  | cons c cs' =>
    have hc : p c = false := by simpa using h
    simp [List.dropWhile, hc]

theorem trimChars_of_ends (cs : List Char)
    (hh : cs.head?.all (fun c => !isJsWhitespace c) = true)
    (hl : cs.getLast?.all (fun c => !isJsWhitespace c) = true) :
    trimChars cs = cs := by
  unfold trimChars
  rw [dropWhile_of_head_not _ _ hh, dropWhile_of_head_not _ _ ?_, List.reverse_reverse]
  rwa [List.head?_reverse]

/-- C9 counterexample: `removeVersionPrefix` removes the first `v` anywhere
in the string, so "1.v2.3" — which does not carry a leading "v" — is not
returned unchanged. -/
theorem removeVersionPrefix_not_noop :
    removeVersionPrefix "1.v2.3" = "1.2.3" ∧ removeVersionPrefix "1.v2.3" ≠ "1.v2.3" := by
  decide

/-- C9 (amended): `removeVersionPrefix` maps "v1.2.3" to "1.2.3", and it is
a no-op exactly on the version strings the implementation
(`version.replace('v', '').trim()`) leaves alone: every string containing
no `v` character at all and carrying no leading or trailing whitespace
(such as "1.2.3") is returned unchanged. (A string with a `v` in the middle
or with surrounding whitespace is rewritten even without a leading "v".) -/
theorem removeVersionPrefix_behavior :
    removeVersionPrefix "v1.2.3" = "1.2.3" ∧
      ∀ s : String, 'v' ∉ s.data →
        s.data.head?.all (fun c => !isJsWhitespace c) = true →
        s.data.getLast?.all (fun c => !isJsWhitespace c) = true →
        removeVersionPrefix s = s := by
  constructor
  · decide
  · intro s hv hh hl
    unfold removeVersionPrefix
    rw [removeFirstChar_of_not_mem 'v' s.data hv, trimChars_of_ends s.data hh hl]

/-- C9 witness: "1.2.3" has no `v` and no surrounding whitespace, and is
returned unchanged. -/
theorem removeVersionPrefix_behavior_witness :
    ('v' ∉ ("1.2.3" : String).data) ∧ removeVersionPrefix "1.2.3" = "1.2.3" :=
  ⟨by decide, removeVersionPrefix_behavior.2 "1.2.3" (by decide) (by decide) (by decide)⟩

end Minc.FileHelper
